import Mathlib

/-!
Verification of the POBEER copy-trading worker core against its source.

Shallow embedding conventions:
* JavaScript numbers are modelled as exact rationals.
* Database tables are modelled as Lean lists in the physical row order
  the store presents; inserts append, a select without an order clause
  returns rows in that list order (an order the underlying SQL store
  does not guarantee), and row creation times are modelled by a
  monotone counter.
* Nullable columns and optional fields are modelled with Option.
* Throwing code is modelled with Except, with the thrown error message
  as a String.
-/

namespace Pobeer

/-- JavaScript substring test, as used by String.prototype.includes. -/
def strContains (s pat : String) : Bool :=
  (List.range (s.toList.length + 1)).any
    (fun i => pat.toList.isPrefixOf (s.toList.drop i))

/-- JavaScript truthiness conversion for an optional number, as in the
pattern x ? String(x) : null where x is a nullable number: both null and
0 produce null. -/
def jsNumOpt (x : Option ℚ) : Option ℚ :=
  match x with
  | none => none
  | some a => if a = 0 then none else some a

/-- JavaScript x || d for an optional number x: null and 0 both fall
back to d. -/
def jsOrDefault (x : Option ℚ) (d : ℚ) : ℚ :=
  match x with
  | none => d
  | some a => if a = 0 then d else a

/-! ## Fee engine (lib/fee-brackets.ts) -/

/-- BASE_FEE from fee-brackets.ts: flat EUR fee per quarter. -/
def BASE_FEE : ℚ := 297

/-- A fee bracket. minProfit is inclusive, maxProfit exclusive; the
source uses -Infinity and Infinity for the open ends, modelled here as
none. -/
structure FeeBracket where
  label : String
  minProfit : Option ℚ
  maxProfit : Option ℚ
  fee : ℚ
deriving Repr, DecidableEq

instance : Inhabited FeeBracket := ⟨⟨"", none, none, 0⟩⟩

/-- FEE_BRACKETS table from fee-brackets.ts. -/
def FEE_BRACKETS : List FeeBracket :=
  [ ⟨"No Profit", none, some 0, 0⟩,
    ⟨"Bronze", some 0, some 2500, 0⟩,
    ⟨"Silver", some 2500, some 10000, 197⟩,
    ⟨"Gold", some 10000, some 25000, 497⟩,
    ⟨"Platinum", some 25000, some 50000, 997⟩,
    ⟨"Diamond", some 50000, none, 1997⟩ ]

/-- The bracket test profit >= bracket.minProfit && profit < bracket.maxProfit,
with the infinite ends always satisfied. -/
def inBracket (b : FeeBracket) (profit : ℚ) : Bool :=
  (match b.minProfit with
   | none => true
   | some m => decide (m ≤ profit)) &&
  (match b.maxProfit with
   | none => true
   | some m => decide (profit < m))

/-- getBracket from fee-brackets.ts: first bracket whose range contains
the profit, falling back to the first bracket. -/
def getBracket (profit : ℚ) : FeeBracket :=
  match FEE_BRACKETS.find? (fun b => inBracket b profit) with
  | some b => b
  | none => FEE_BRACKETS.headI

/-- Result record of calculateTotalFee. -/
structure FeeResult where
  baseFee : ℚ
  bracketFee : ℚ
  bracketLabel : String
  totalFee : ℚ
deriving Repr, DecidableEq

/-- calculateTotalFee from fee-brackets.ts. -/
def calculateTotalFee (profit : ℚ) : FeeResult :=
  let bracket := getBracket profit
  let bracketFee := if profit ≤ 0 then 0 else bracket.fee
  { baseFee := BASE_FEE
    bracketFee := bracketFee
    bracketLabel := bracket.label
    totalFee := BASE_FEE + bracketFee }

/-- calculateQuarterProfit from fee-brackets.ts. -/
def calculateQuarterProfit (startEquity endEquity netDeposits netWithdrawals : ℚ) : ℚ :=
  endEquity - startEquity - netDeposits + netWithdrawals

/-! ## Position ledger (worker/position-tracker.ts) -/

/-- One row of the positions table. createdAt is the insertion counter
of the store, standing in for the row creation timestamp. -/
structure PositionRow where
  id : ℕ
  userId : String
  symbol : String
  side : String
  entryPrice : ℚ
  entryQuantity : ℚ
  exitPrice : Option ℚ
  exitQuantity : Option ℚ
  realizedPnl : Option ℚ
  status : String
  positionGroupId : Option String
  createdAt : ℕ
deriving Repr, DecidableEq

/-- The positions store: rows in insertion order plus the id and
creation-time counter. -/
structure PosDB where
  rows : List PositionRow
  nextId : ℕ
deriving Repr, DecidableEq

def PosDB.empty : PosDB := ⟨[], 0⟩

/-- PositionTracker.openPosition: always inserts a fresh open row.
Returns the new row id and the updated store. -/
def openPosition (sdb : PosDB) (userId symbol : String)
    (entryPrice entryQuantity : ℚ) (positionGroupId : Option String) :
    ℕ × PosDB :=
  let row : PositionRow :=
    { id := sdb.nextId
      userId := userId
      symbol := symbol
      side := "buy"
      entryPrice := entryPrice
      entryQuantity := entryQuantity
      exitPrice := none
      exitQuantity := none
      realizedPnl := none
      status := "open"
      positionGroupId := positionGroupId
      createdAt := sdb.nextId }
  (sdb.nextId, ⟨sdb.rows ++ [row], sdb.nextId + 1⟩)

/-- Whether a row is an open position of the given user and symbol. -/
def isOpenFor (r : PositionRow) (userId symbol : String) : Bool :=
  r.userId = userId && r.symbol = symbol && r.status = "open"

/-- Of two rows, the one created first (the first argument on ties),
matching an ascending order-by with limit 1. -/
def olderOf (a b : PositionRow) : PositionRow :=
  if b.createdAt < a.createdAt then b else a

/-- The select in closePosition: open rows of (user, symbol) ordered by
createdAt ascending, first row only. -/
def oldestOpen (rows : List PositionRow) (userId symbol : String) :
    Option PositionRow :=
  match rows.filter (fun r => isOpenFor r userId symbol) with
  | [] => none
  | r :: rs => some (rs.foldl olderOf r)

/-- PositionTracker.closePosition: close the oldest open position of
(user, symbol); none means no open position was found and nothing
changed. -/
def closePosition (sdb : PosDB) (userId symbol : String)
    (exitPrice exitQuantity : ℚ) : Option ℚ × PosDB :=
  match oldestOpen sdb.rows userId symbol with
  | none => (none, sdb)
  | some p =>
    let entryPrice := p.entryPrice
    let entryQty := p.entryQuantity
    let closeQty := min exitQuantity entryQty
    let realizedPnl := (exitPrice - entryPrice) * closeQty
    (some realizedPnl,
      { sdb with
        rows := sdb.rows.map (fun r =>
          if r.id = p.id then
            { r with
              exitPrice := some exitPrice
              exitQuantity := some closeQty
              realizedPnl := some realizedPnl
              status := "closed" }
          else r) })

/-! ## Leader watcher (worker/leader-watcher.ts) -/

/-- The fields of a ccxt order consumed by the worker. -/
structure Order where
  id : String
  symbol : String
  side : String
  otype : Option String
  amount : ℚ
  price : Option ℚ
  average : Option ℚ
  filled : Option ℚ
  status : String
  timestamp : Option ℕ
deriving Repr, DecidableEq

/-- One row of the leader_trades table. -/
structure LeaderTradeRow where
  bybitOrderId : String
  symbol : String
  side : String
  orderType : String
  quantity : ℚ
  price : Option ℚ
  avgFillPrice : Option ℚ
  filledQuantity : ℚ
  status : String
  positionGroupId : Option String
deriving Repr, DecidableEq

/-- Rank of a leader-trade status in the detected, open, closed order. -/
def statusRank (s : String) : ℕ :=
  if s = "closed" then 2 else if s = "open" then 1 else 0

/-- The truthiness test on order.filled and order.average used by the
fill conditions: order.filled && order.filled > 0 && order.average. -/
def isFill (o : Order) : Bool :=
  o.status = "closed" &&
  (match o.filled with
   | none => false
   | some f => !(f = 0) && decide (0 < f)) &&
  (match o.average with
   | none => false
   | some a => !(a = 0))

/-- LeaderWatcher.processOrder restricted to its effect on the
leader_trades table (the fill handler only reads this table; its
ledger and copier effects are modelled separately). now is the clock
reading used for the fresh position-group id. -/
def processOrder (table : List LeaderTradeRow) (now : ℕ) (o : Order) :
    List LeaderTradeRow :=
  match table.find? (fun r => r.bybitOrderId = o.id) with
  | none =>
    table ++
      [ { bybitOrderId := o.id
          symbol := o.symbol
          side := o.side
          orderType := o.otype.getD "market"
          quantity := o.amount
          price := jsNumOpt o.price
          avgFillPrice := jsNumOpt o.average
          filledQuantity := jsOrDefault o.filled 0
          status := if o.status = "closed" then "closed" else "detected"
          positionGroupId := some (o.symbol ++ "_" ++ toString now) } ]
  | some existing =>
    table.map (fun r =>
      if r.bybitOrderId = o.id then
        { r with
          avgFillPrice := jsNumOpt o.average
          filledQuantity := jsOrDefault o.filled 0
          status := if o.status = "closed" then "closed" else existing.status }
      else r)

/-- A whole replay: processOrder folded over a sequence of clocked
order updates (batches flattened in arrival order). -/
def runWatcher (table : List LeaderTradeRow) (evs : List (ℕ × Order)) :
    List LeaderTradeRow :=
  evs.foldl (fun t e => processOrder t e.1 e.2) table

/-! ## Trade copier (worker/trade-copier.ts) -/

def MAX_RETRIES : ℕ := 3

def RETRY_BASE_DELAY : ℕ := 1000

/-- The rate-limit test on an error message in retryOrder. -/
def isRateLimit (msg : String) : Bool :=
  strContains msg "rate" || strContains msg "429"

/-- The transient-network test on an error message in retryOrder. -/
def isNetwork (msg : String) : Bool :=
  strContains msg "network" || strContains msg "ECONNRESET" ||
    strContains msg "timeout"

/-- The loop body of TradeCopier.retryOrder. The order placement is a
function from the attempt number to its outcome. Returns the final
outcome, the list of backoff delays slept in milliseconds, and the
number of attempts actually made. -/
def retryLoop (attempts : ℕ → Except String α) :
    ℕ → ℕ → List ℕ → Option String → Except String α × List ℕ × ℕ
  | attempt, 0, delays, lastError =>
    (Except.error (lastError.getD ""), delays, attempt)
  | attempt, remaining + 1, delays, _ =>
    match attempts attempt with
    | Except.ok v => (Except.ok v, delays, attempt + 1)
    | Except.error e =>
      if isRateLimit e || isNetwork e then
        retryLoop attempts (attempt + 1) remaining
          (delays ++ [RETRY_BASE_DELAY * 2 ^ attempt]) (some e)
      else (Except.error e, delays, attempt + 1)

/-- TradeCopier.retryOrder. -/
def retryOrder (attempts : ℕ → Except String α) :
    Except String α × List ℕ × ℕ :=
  retryLoop attempts 0 MAX_RETRIES [] none

/-- The fields of a users row consumed by the copier. -/
structure UserRow where
  id : String
  role : String
  copyRatioPercent : Option ℚ
  maxTradeUsd : Option ℚ
  copyingEnabled : Bool
deriving Repr, DecidableEq

/-- One row of the follower_trades table. -/
structure FollowerTradeRow where
  leaderTradeId : String
  followerId : String
  symbol : String
  side : String
  status : String
  ratioUsed : ℚ
  bybitOrderId : Option String
  avgFillPrice : Option ℚ
  errorMessage : Option String
deriving Repr, DecidableEq

/-- The fields of a placeMarketOrder result consumed by the copier. -/
structure OrderResult where
  id : String
  filled : Option ℚ
  average : Option ℚ
deriving Repr, DecidableEq

/-- One row of the fees table. -/
structure FeeRow where
  followerId : String
  positionId : ℕ
  profitAmount : ℚ
  feePercent : ℚ
  feeAmount : ℚ
  status : String
deriving Repr, DecidableEq

def FEE_PERCENT : ℚ := 2

/-- FeeCalculator.calculateFee: records a fee only for a positive
profit. -/
def calculateFee (feesTable : List FeeRow) (followerId : String)
    (positionId : ℕ) (profitAmount : ℚ) : List FeeRow :=
  if profitAmount ≤ 0 then feesTable
  else
    feesTable ++
      [ { followerId := followerId
          positionId := positionId
          profitAmount := profitAmount
          feePercent := FEE_PERCENT
          feeAmount := profitAmount * (FEE_PERCENT / 100)
          status := "calculated" } ]

/-- The copier-visible store: users, follower trades, fees and the
position ledger. ordersRequested records each (symbol, side, quantity)
handed to the retry helper, so that claims about orders being placed or
not are expressible. -/
structure CopyState where
  users : List UserRow
  followerTrades : List FollowerTradeRow
  posdb : PosDB
  fees : List FeeRow
  ordersRequested : List (String × String × ℚ)
deriving Repr, DecidableEq

/-- TradeCopier.insertFollowerTrade. -/
def insertFollowerTrade (st : CopyState) (leaderTradeId followerId symbol side status : String)
    (ratioUsed : ℚ) (bybitOrderId : Option String) (avgFillPrice : Option ℚ)
    (errorMessage : Option String) : CopyState :=
  { st with
    followerTrades := st.followerTrades ++
      [ { leaderTradeId := leaderTradeId
          followerId := followerId
          symbol := symbol
          side := side
          status := status
          ratioUsed := ratioUsed
          bybitOrderId := bybitOrderId
          avgFillPrice := avgFillPrice
          errorMessage := errorMessage } ] }

/-- TradeCopier.getActiveFollowers: followers with copying enabled. -/
def getActiveFollowers (usersTable : List UserRow) : List UserRow :=
  usersTable.filter (fun u => u.role = "follower" && u.copyingEnabled)

/-- The auth-error test in executeBuyForFollower. -/
def isAuthError (msg : String) : Bool :=
  strContains msg "Invalid API" || strContains msg "auth" ||
    strContains msg "permission"

/-- The catch branch shared by the buy path: record a failed
FollowerTrade and, on an auth error, disable copying for the
follower. -/
def buyCatchBranch (st : CopyState) (leaderTradeId followerId symbol : String)
    (ratioUsed : ℚ) (errorMsg : String) : CopyState :=
  let st1 := insertFollowerTrade st leaderTradeId followerId symbol "buy"
    "failed" ratioUsed none none (some errorMsg)
  if isAuthError errorMsg then
    { st1 with
      users := st1.users.map (fun u =>
        if u.id = followerId then { u with copyingEnabled := false } else u) }
  else st1

/-- TradeCopier.executeBuyForFollower. The exchange interactions are
parameters: balanceResult is the outcome of the balance fetch, and
attempts maps each retry attempt of the market buy to its outcome. -/
def executeBuyForFollower (st : CopyState) (follower : UserRow)
    (leaderTrade : LeaderTradeRow) (fillPrice : ℚ)
    (balanceResult : Except String ℚ)
    (attempts : ℕ → Except String OrderResult) : CopyState :=
  let ratioPct := jsOrDefault follower.copyRatioPercent 10
  match balanceResult with
  | Except.error e =>
    buyCatchBranch st leaderTrade.bybitOrderId follower.id leaderTrade.symbol
      ratioPct e
  | Except.ok availableUsdt =>
    let tradeUsdt0 := availableUsdt * (ratioPct / 100)
    let tradeUsdt :=
      match follower.maxTradeUsd with
      | none => tradeUsdt0
      | some cap => min tradeUsdt0 cap
    if tradeUsdt < 1 then
      insertFollowerTrade st leaderTrade.bybitOrderId follower.id
        leaderTrade.symbol "buy" "skipped" ratioPct none none
        (some "Insufficient balance")
    else
      let quantity := tradeUsdt / fillPrice
      let st1 := { st with
        ordersRequested := st.ordersRequested ++
          [(leaderTrade.symbol, "buy", quantity)] }
      match (retryOrder attempts).1 with
      | Except.ok result =>
        let st2 := insertFollowerTrade st1 leaderTrade.bybitOrderId follower.id
          leaderTrade.symbol "buy" "filled" ratioPct (some result.id)
          (some (result.average.getD fillPrice)) none
        { st2 with
          posdb := (openPosition st2.posdb follower.id leaderTrade.symbol
            (result.average.getD fillPrice)
            (jsOrDefault result.filled quantity)
            leaderTrade.positionGroupId).2 }
      | Except.error e =>
        buyCatchBranch st1 leaderTrade.bybitOrderId follower.id
          leaderTrade.symbol ratioPct e

/-- The select in executeSellForFollower: open rows of (user, symbol)
with limit 1 and no order clause. It yields the first matching row in
the current physical row order of the table; the source query, lacking
an order-by, does not pin that order to creation order. -/
def firstOpenFor (rows : List PositionRow) (userId symbol : String) :
    Option PositionRow :=
  (rows.filter (fun r => isOpenFor r userId symbol)).head?

/-- TradeCopier.executeSellForFollower. attempts maps each retry
attempt of the market sell to its outcome. -/
def executeSellForFollower (st : CopyState) (follower : UserRow)
    (leaderTrade : LeaderTradeRow) (fillPrice : ℚ)
    (attempts : ℕ → Except String OrderResult) : CopyState :=
  match firstOpenFor st.posdb.rows follower.id leaderTrade.symbol with
  | none => st
  | some position =>
    let sellQuantity := position.entryQuantity
    let st1 := { st with
      ordersRequested := st.ordersRequested ++
        [(leaderTrade.symbol, "sell", sellQuantity)] }
    match (retryOrder attempts).1 with
    | Except.ok result =>
      let exitPrice := result.average.getD fillPrice
      let st2 := insertFollowerTrade st1 leaderTrade.bybitOrderId follower.id
        leaderTrade.symbol "sell" "filled"
        (jsOrDefault follower.copyRatioPercent 10) (some result.id)
        (some exitPrice) none
      let closed := closePosition st2.posdb follower.id leaderTrade.symbol
        exitPrice (jsOrDefault result.filled sellQuantity)
      let st3 := { st2 with posdb := closed.2 }
      match closed.1 with
      | some pnl =>
        if 0 < pnl then
          { st3 with fees := calculateFee st3.fees follower.id position.id pnl }
        else st3
      | none => st3
    | Except.error e =>
      insertFollowerTrade st1 leaderTrade.bybitOrderId follower.id
        leaderTrade.symbol "sell" "failed"
        (jsOrDefault follower.copyRatioPercent 10) none none (some e)

/-! ## Reconciler (worker/reconciler.ts) -/

/-- The store touched by the startup reconciliation pass. -/
structure RecState where
  leaderTrades : List LeaderTradeRow
  posdb : PosDB
  followerTrades : List FollowerTradeRow
deriving Repr, DecidableEq

/-- Reconciler.reconcile, body of the per-order loop: insert an unseen
order and, when it is a closed fill, update the position ledger of the
leader; the copier is never called. now is the clock fallback for a
missing order timestamp. -/
def reconcileOrder (leaderId : String) (now : ℕ) (st : RecState)
    (o : Order) : RecState :=
  match st.leaderTrades.find? (fun r => r.bybitOrderId = o.id) with
  | some _ => st
  | none =>
    let positionGroupId := o.symbol ++ "_" ++ toString (o.timestamp.getD now)
    let row : LeaderTradeRow :=
      { bybitOrderId := o.id
        symbol := o.symbol
        side := o.side
        orderType := o.otype.getD "market"
        quantity := o.amount
        price := jsNumOpt o.price
        avgFillPrice := jsNumOpt o.average
        filledQuantity := jsOrDefault o.filled 0
        status :=
          if o.status = "closed" then "closed"
          else if o.status = "open" then "open"
          else "detected"
        positionGroupId := some positionGroupId }
    let st1 := { st with leaderTrades := st.leaderTrades ++ [row] }
    if isFill o then
      if o.side = "buy" then
        { st1 with
          posdb := (openPosition st1.posdb leaderId o.symbol
            (o.average.getD 0) (o.filled.getD 0) (some positionGroupId)).2 }
      else
        { st1 with
          posdb := (closePosition st1.posdb leaderId o.symbol
            (o.average.getD 0) (o.filled.getD 0)).2 }
    else st1

/-- Reconciler.reconcile over the concatenated open and closed order
fetch results. -/
def reconcile (leaderId : String) (now : ℕ) (st : RecState)
    (allOrders : List Order) : RecState :=
  allOrders.foldl (reconcileOrder leaderId now) st

/-! ## Invoice generator (worker/invoice-generator.ts) -/

/-- The per-follower quarter inputs read by generateForFollower:
the balance snapshots of the quarter in date order, the optional
quarter equity snapshot values, and the transfer sums of the
quarter. -/
structure FollowerQData where
  snapshots : List ℚ
  startEquitySnap : Option ℚ
  endEquitySnap : Option ℚ
  netDeposits : ℚ
  netWithdrawals : ℚ
deriving Repr, DecidableEq

/-- One row of the invoices table (the fields the claims are about). -/
structure InvoiceRow where
  followerId : String
  quarterLabel : String
  avgBalance : ℚ
  invoiceAmount : ℚ
  baseFee : ℚ
  bracketFee : ℚ
  bracketLabel : String
  quarterProfit : ℚ
  status : String
deriving Repr, DecidableEq

/-- InvoiceGenerator.generateForFollower: none when skipped (no
snapshots in the quarter, or total fee below one cent), some row when
an invoice is inserted. -/
def generateForFollower (followerId : String) (d : FollowerQData)
    (quarterLabel : String) : Option InvoiceRow :=
  let daysActive := d.snapshots.length
  if daysActive = 0 then none
  else
    let avgBalance := d.snapshots.sum / daysActive
    let startEquity := d.startEquitySnap.getD (d.snapshots.headI)
    let endEquity := d.endEquitySnap.getD (d.snapshots.getLastD 0)
    let quarterProfit := calculateQuarterProfit startEquity endEquity
      d.netDeposits d.netWithdrawals
    let feeResult := calculateTotalFee quarterProfit
    if feeResult.totalFee < 1 / 100 then none
    else
      some
        { followerId := followerId
          quarterLabel := quarterLabel
          avgBalance := avgBalance
          invoiceAmount := feeResult.totalFee
          baseFee := feeResult.baseFee
          bracketFee := feeResult.bracketFee
          bracketLabel := feeResult.bracketLabel
          quarterProfit := quarterProfit
          status := "pending" }

/-- The store touched by the invoice job: the system_config key-value
table and the invoices table. -/
structure InvState where
  systemConfig : List (String × String)
  invoices : List InvoiceRow
deriving Repr, DecidableEq

/-- Lookup in the system_config table. -/
def configLookup (cfg : List (String × String)) (key : String) :
    Option String :=
  (cfg.find? (fun kv => kv.1 = key)).map (fun kv => kv.2)

/-- Upsert in the system_config table (insert ... on conflict do
update). -/
def configUpsert (cfg : List (String × String)) (key value : String) :
    List (String × String) :=
  if (cfg.find? (fun kv => kv.1 = key)).isSome then
    cfg.map (fun kv => if kv.1 = key then (key, value) else kv)
  else cfg ++ [(key, value)]

/-- InvoiceGenerator.shouldRun, given the calendar day and month of the
tick and the label of the previous quarter: run only on the first day
of a quarter-start month and only if the stored marker is not already
that quarter. -/
def shouldRun (st : InvState) (day month : ℕ) (quarterLabel : String) :
    Bool :=
  if day ≠ 1 || !([1, 4, 7, 10].contains month) then false
  else
    match configLookup st.systemConfig "last_invoice_generation" with
    | some v => !(v = quarterLabel)
    | none => true

/-- InvoiceGenerator.run: generate per follower (each insert appended
to the invoices table), then record the quarter in the marker. data
gives the quarter inputs per follower id. -/
def runGenerator (st : InvState) (followers : List String)
    (data : String → FollowerQData) (quarterLabel : String) : InvState :=
  let st1 := followers.foldl
    (fun s f =>
      match generateForFollower f (data f) quarterLabel with
      | some inv => { s with invoices := s.invoices ++ [inv] }
      | none => s)
    st
  { st1 with
    systemConfig := configUpsert st1.systemConfig "last_invoice_generation"
      quarterLabel }

/-- One scheduler tick of the invoice job: run only when shouldRun
says so. -/
def invoiceJobTick (st : InvState) (day month : ℕ)
    (followers : List String) (data : String → FollowerQData)
    (quarterLabel : String) : InvState :=
  if shouldRun st day month quarterLabel then
    runGenerator st followers data quarterLabel
  else st

/-! ## Bracket selection lemmas -/

lemma getBracket_noProfit (p : ℚ) (hp : p < 0) :
    getBracket p = ⟨"No Profit", none, some 0, 0⟩ := by
  have h0 : inBracket ⟨"No Profit", none, some 0, 0⟩ p = true := by
    simp [inBracket, hp]
  unfold getBracket FEE_BRACKETS
  simp only [List.find?_cons, h0]

lemma getBracket_bronze (p : ℚ) (h0 : 0 ≤ p) (h1 : p < 2500) :
    getBracket p = ⟨"Bronze", some 0, some 2500, 0⟩ := by
  have ha : inBracket ⟨"No Profit", none, some 0, 0⟩ p = false := by
    simp [inBracket]; linarith
  have hb : inBracket ⟨"Bronze", some 0, some 2500, 0⟩ p = true := by
    simp [inBracket]; exact ⟨h0, h1⟩
  unfold getBracket FEE_BRACKETS
  simp only [List.find?_cons, ha, hb]

lemma getBracket_silver (p : ℚ) (h0 : 2500 ≤ p) (h1 : p < 10000) :
    getBracket p = ⟨"Silver", some 2500, some 10000, 197⟩ := by
  have ha : inBracket ⟨"No Profit", none, some 0, 0⟩ p = false := by
    simp [inBracket]; linarith
  have hb : inBracket ⟨"Bronze", some 0, some 2500, 0⟩ p = false := by
    simp [inBracket]; intro h; linarith
  have hc : inBracket ⟨"Silver", some 2500, some 10000, 197⟩ p = true := by
    simp [inBracket]; exact ⟨h0, h1⟩
  unfold getBracket FEE_BRACKETS
  simp only [List.find?_cons, ha, hb, hc]

lemma getBracket_gold (p : ℚ) (h0 : 10000 ≤ p) (h1 : p < 25000) :
    getBracket p = ⟨"Gold", some 10000, some 25000, 497⟩ := by
  have ha : inBracket ⟨"No Profit", none, some 0, 0⟩ p = false := by
    simp [inBracket]; linarith
  have hb : inBracket ⟨"Bronze", some 0, some 2500, 0⟩ p = false := by
    simp [inBracket]; intro h; linarith
  have hc : inBracket ⟨"Silver", some 2500, some 10000, 197⟩ p = false := by
    simp [inBracket]; intro h; linarith
  have hd : inBracket ⟨"Gold", some 10000, some 25000, 497⟩ p = true := by
    simp [inBracket]; exact ⟨h0, h1⟩
  unfold getBracket FEE_BRACKETS
  simp only [List.find?_cons, ha, hb, hc, hd]

lemma getBracket_platinum (p : ℚ) (h0 : 25000 ≤ p) (h1 : p < 50000) :
    getBracket p = ⟨"Platinum", some 25000, some 50000, 997⟩ := by
  have ha : inBracket ⟨"No Profit", none, some 0, 0⟩ p = false := by
    simp [inBracket]; linarith
  have hb : inBracket ⟨"Bronze", some 0, some 2500, 0⟩ p = false := by
    simp [inBracket]; intro h; linarith
  have hc : inBracket ⟨"Silver", some 2500, some 10000, 197⟩ p = false := by
    simp [inBracket]; intro h; linarith
  have hd : inBracket ⟨"Gold", some 10000, some 25000, 497⟩ p = false := by
    simp [inBracket]; intro h; linarith
  have he : inBracket ⟨"Platinum", some 25000, some 50000, 997⟩ p = true := by
    simp [inBracket]; exact ⟨h0, h1⟩
  unfold getBracket FEE_BRACKETS
  simp only [List.find?_cons, ha, hb, hc, hd, he]

lemma getBracket_diamond (p : ℚ) (h0 : 50000 ≤ p) :
    getBracket p = ⟨"Diamond", some 50000, none, 1997⟩ := by
  have ha : inBracket ⟨"No Profit", none, some 0, 0⟩ p = false := by
    simp [inBracket]; linarith
  have hb : inBracket ⟨"Bronze", some 0, some 2500, 0⟩ p = false := by
    simp [inBracket]; intro h; linarith
  have hc : inBracket ⟨"Silver", some 2500, some 10000, 197⟩ p = false := by
    simp [inBracket]; intro h; linarith
  have hd : inBracket ⟨"Gold", some 10000, some 25000, 497⟩ p = false := by
    simp [inBracket]; intro h; linarith
  have he : inBracket ⟨"Platinum", some 25000, some 50000, 997⟩ p = false := by
    simp [inBracket]; intro h; linarith
  have hf : inBracket ⟨"Diamond", some 50000, none, 1997⟩ p = true := by
    simp [inBracket]; exact h0
  unfold getBracket FEE_BRACKETS
  simp only [List.find?_cons, ha, hb, hc, hd, he, hf]

/-- The selected bracket always contains the profit. -/
lemma getBracket_contains (p : ℚ) : inBracket (getBracket p) p = true := by
  rcases lt_or_le p 0 with h | h0
  · rw [getBracket_noProfit p h]; simp [inBracket, h]
  · rcases lt_or_le p 2500 with h1 | h1
    · rw [getBracket_bronze p h0 h1]; simp [inBracket]; exact ⟨h0, h1⟩
    · rcases lt_or_le p 10000 with h2 | h2
      · rw [getBracket_silver p h1 h2]; simp [inBracket]; exact ⟨h1, h2⟩
      · rcases lt_or_le p 25000 with h3 | h3
        · rw [getBracket_gold p h2 h3]; simp [inBracket]; exact ⟨h2, h3⟩
        · rcases lt_or_le p 50000 with h4 | h4
          · rw [getBracket_platinum p h3 h4]; simp [inBracket]
            exact ⟨h3, h4⟩
          · rw [getBracket_diamond p h4]; simp [inBracket]; exact h4

/-- Any listed bracket that contains the profit is the selected one:
the ranges partition the profit line. -/
lemma getBracket_unique (p : ℚ) (b : FeeBracket) (hb : b ∈ FEE_BRACKETS)
    (hbp : inBracket b p = true) : getBracket p = b := by
  fin_cases hb
  · simp [inBracket] at hbp
    exact getBracket_noProfit p hbp
  · simp [inBracket] at hbp
    exact getBracket_bronze p hbp.1 hbp.2
  · simp [inBracket] at hbp
    exact getBracket_silver p hbp.1 hbp.2
  · simp [inBracket] at hbp
    exact getBracket_gold p hbp.1 hbp.2
  · simp [inBracket] at hbp
    exact getBracket_platinum p hbp.1 hbp.2
  · simp [inBracket] at hbp
    exact getBracket_diamond p hbp

/-- The selected bracket is always a listed one or the fallback, and
its fee is nonnegative. -/
lemma getBracket_fee_nonneg (p : ℚ) : 0 ≤ (getBracket p).fee := by
  unfold getBracket
  cases hfind : FEE_BRACKETS.find? (fun b => inBracket b p) with
  | none => simp [FEE_BRACKETS]
  | some b =>
    have hmem := List.mem_of_find?_eq_some hfind
    fin_cases hmem <;> norm_num

lemma bracketFee_nonneg (p : ℚ) : 0 ≤ (calculateTotalFee p).bracketFee := by
  unfold calculateTotalFee
  by_cases hp : p ≤ 0
  · simp [hp]
  · simpa [hp] using getBracket_fee_nonneg p

/-! ## Claim theorems -/

/-- C2: the quarter profit is endEquity − startEquity − netDeposits +
netWithdrawals; the fixed base fee is always included in the total; the
bracket fee is nonzero only for positive profit and, for positive
profit, is the fee of the selected bracket; the selected bracket always
contains the profit with inclusive lower bound and exclusive upper
bound, and is the unique listed bracket doing so, so a profit exactly
at a lower bound selects that bracket; for profit at most 0 the bracket
fee is 0 and the total equals the base fee alone. -/
theorem C2_quarter_fee_spec :
    (∀ s e d w : ℚ, calculateQuarterProfit s e d w = e - s - d + w) ∧
    (∀ p : ℚ, (calculateTotalFee p).baseFee = BASE_FEE ∧
      (calculateTotalFee p).totalFee =
        BASE_FEE + (calculateTotalFee p).bracketFee) ∧
    (∀ p : ℚ, p ≤ 0 → (calculateTotalFee p).bracketFee = 0 ∧
      (calculateTotalFee p).totalFee = BASE_FEE) ∧
    (∀ p : ℚ, (calculateTotalFee p).bracketFee ≠ 0 → 0 < p) ∧
    (∀ p : ℚ, 0 < p → (calculateTotalFee p).bracketFee = (getBracket p).fee ∧
      (calculateTotalFee p).bracketLabel = (getBracket p).label) ∧
    (∀ p : ℚ, inBracket (getBracket p) p = true) ∧
    (∀ p : ℚ, ∀ b ∈ FEE_BRACKETS, inBracket b p = true → getBracket p = b) := by
  refine ⟨fun s e d w => rfl, fun p => ⟨rfl, rfl⟩, ?_, ?_, ?_,
    getBracket_contains, getBracket_unique⟩
  · intro p hp
    constructor <;> simp [calculateTotalFee, hp]
  · intro p h
    by_contra hp
    push_neg at hp
    exact h (by simp [calculateTotalFee, hp])
  · intro p hp
    constructor <;> simp [calculateTotalFee, not_le.mpr hp]

/-- Witness for C2 at concrete inputs: profit 2500 sits exactly at the
lower bound of the Silver bracket and selects it, and a loss pays the
base fee alone. -/
theorem C2_quarter_fee_spec_witness :
    getBracket 2500 = ⟨"Silver", some 2500, some 10000, 197⟩ ∧
    (calculateTotalFee (-5)).bracketFee = 0 ∧
    (calculateTotalFee (-5)).totalFee = BASE_FEE := by
  refine ⟨C2_quarter_fee_spec.2.2.2.2.2.2 2500
      ⟨"Silver", some 2500, some 10000, 197⟩ (by decide) (by decide),
    (C2_quarter_fee_spec.2.2.1 (-5) (by norm_num)).1,
    (C2_quarter_fee_spec.2.2.1 (-5) (by norm_num)).2⟩

/-- C10: the total fee is the fixed base fee 297 plus a nonnegative
bracket fee, so it is at least 297 and in particular never below one
cent; hence a follower with at least one balance snapshot in the
quarter always receives an invoice, and its amount is at least the
base fee. -/
theorem C10_total_fee_floor :
    (∀ p : ℚ, (calculateTotalFee p).baseFee = 297 ∧
      (calculateTotalFee p).totalFee = 297 + (calculateTotalFee p).bracketFee ∧
      0 ≤ (calculateTotalFee p).bracketFee ∧
      297 ≤ (calculateTotalFee p).totalFee ∧
      ¬ (calculateTotalFee p).totalFee < 1 / 100) ∧
    (∀ (followerId : String) (d : FollowerQData) (quarterLabel : String),
      d.snapshots ≠ [] →
      ∃ inv : InvoiceRow, generateForFollower followerId d quarterLabel = some inv ∧
        297 ≤ inv.invoiceAmount) := by
  have hbase : ∀ p : ℚ, (calculateTotalFee p).totalFee =
      297 + (calculateTotalFee p).bracketFee := fun p => rfl
  have hfloor : ∀ p : ℚ, 297 ≤ (calculateTotalFee p).totalFee := by
    intro p
    have := bracketFee_nonneg p
    rw [hbase p]
    linarith
  constructor
  · intro p
    refine ⟨rfl, hbase p, bracketFee_nonneg p, hfloor p, ?_⟩
    have := hfloor p
    intro hlt
    linarith
  · intro followerId d quarterLabel hne
    have hd : ¬ d.snapshots.length = 0 := by
      simpa [List.length_eq_zero] using hne
    unfold generateForFollower
    rw [if_neg hd]
    have hskip : ¬ (calculateTotalFee
        (calculateQuarterProfit (d.startEquitySnap.getD d.snapshots.headI)
          (d.endEquitySnap.getD (d.snapshots.getLastD 0))
          d.netDeposits d.netWithdrawals)).totalFee < 1 / 100 := by
      have := hfloor (calculateQuarterProfit
        (d.startEquitySnap.getD d.snapshots.headI)
        (d.endEquitySnap.getD (d.snapshots.getLastD 0))
        d.netDeposits d.netWithdrawals)
      intro hlt
      linarith
    rw [if_neg hskip]
    exact ⟨_, rfl, hfloor _⟩

/-- Witness for C10: a follower with a single snapshot of 1000 and no
equity movement receives an invoice of exactly the base fee. -/
theorem C10_total_fee_floor_witness :
    ∃ inv : InvoiceRow,
      generateForFollower "f1" ⟨[1000], none, none, 0, 0⟩ "2025-Q3" = some inv ∧
      297 ≤ inv.invoiceAmount :=
  C10_total_fee_floor.2 "f1" ⟨[1000], none, none, 0, 0⟩ "2025-Q3" (by decide)

/-- The retry loop never makes more calls than it has attempts left. -/
lemma retryLoop_count_le (attempts : ℕ → Except String α) :
    ∀ (remaining attempt : ℕ) (delays : List ℕ) (lastError : Option String),
      (retryLoop attempts attempt remaining delays lastError).2.2 ≤
        attempt + remaining := by
  intro remaining
  induction remaining with
  | zero => intro attempt delays lastError; simp [retryLoop]
  | succ n ih =>
    intro attempt delays lastError
    unfold retryLoop
    cases attempts attempt with
    | ok v => simp
    | error e =>
      dsimp only
      by_cases hr : (isRateLimit e || isNetwork e) = true
      · rw [if_pos hr]
        calc (retryLoop attempts (attempt + 1) n
              (delays ++ [RETRY_BASE_DELAY * 2 ^ attempt]) (some e)).2.2
            ≤ attempt + 1 + n := ih (attempt + 1) _ (some e)
          _ = attempt + (n + 1) := by omega
      · rw [if_neg hr]
        simp

/-- C6: a first attempt failing with a non-retriable error propagates
at once, with no backoff sleeps and a single attempt; a retriable
failure is retried, so a retriable first failure followed by a success
returns the success after one 1000 ms backoff and two attempts; three
retriable failures exhaust the 3 attempts, sleep the exponential
backoffs 1000, 2000 and 4000 ms, and surface the last error; and no
run ever makes more than 3 attempts. -/
theorem C6_retry_policy :
    (∀ (attempts : ℕ → Except String OrderResult) (e : String),
      attempts 0 = Except.error e →
      isRateLimit e = false → isNetwork e = false →
      retryOrder attempts = (Except.error e, [], 1)) ∧
    (∀ (attempts : ℕ → Except String OrderResult) (e0 : String)
      (v : OrderResult),
      attempts 0 = Except.error e0 →
      (isRateLimit e0 || isNetwork e0) = true →
      attempts 1 = Except.ok v →
      retryOrder attempts = (Except.ok v, [1000], 2)) ∧
    (∀ (attempts : ℕ → Except String OrderResult) (e0 e1 e2 : String),
      attempts 0 = Except.error e0 →
      attempts 1 = Except.error e1 →
      attempts 2 = Except.error e2 →
      (isRateLimit e0 || isNetwork e0) = true →
      (isRateLimit e1 || isNetwork e1) = true →
      (isRateLimit e2 || isNetwork e2) = true →
      retryOrder attempts = (Except.error e2, [1000, 2000, 4000], 3)) ∧
    (∀ attempts : ℕ → Except String OrderResult,
      (retryOrder attempts).2.2 ≤ 3) := by
  refine ⟨?_, ?_, ?_, ?_⟩
  · intro attempts e h0 hrl hnw
    simp [retryOrder, MAX_RETRIES, retryLoop, h0, hrl, hnw]
  · intro attempts e0 v h0 hr0 h1
    simp [retryOrder, MAX_RETRIES, retryLoop, h0, hr0, h1,
      RETRY_BASE_DELAY]
  · intro attempts e0 e1 e2 h0 h1 h2 hr0 hr1 hr2
    simp [retryOrder, MAX_RETRIES, retryLoop, h0, h1, h2, hr0, hr1, hr2,
      RETRY_BASE_DELAY]
  · intro attempts
    simpa using retryLoop_count_le attempts MAX_RETRIES 0 [] none

/-- Witness for C6 at concrete attempt scripts: a business error is
not retried; three 429 failures sleep 1000, 2000 and 4000 ms and
surface the last error. -/
theorem C6_retry_policy_witness :
    retryOrder (fun _ => (Except.error "insufficient funds" :
        Except String OrderResult)) =
      (Except.error "insufficient funds", [], 1) ∧
    retryOrder (fun i => (Except.error ("429 attempt " ++ toString i) :
        Except String OrderResult)) =
      (Except.error "429 attempt 2", [1000, 2000, 4000], 3) := by
  constructor
  · exact C6_retry_policy.1 _ "insufficient funds" rfl (by decide) (by decide)
  · exact C6_retry_policy.2.2.1 _ "429 attempt 0" "429 attempt 1"
      "429 attempt 2" rfl rfl rfl (by decide) (by decide) (by decide)

/-- C5: for a follower processed by buy propagation, the notional is
min(balance × ratio%, maxTradeUsd), with the ratio defaulting to 10
when unset and no cap when maxTradeUsd is unset; below the one-dollar
floor a skipped FollowerTrade is recorded and no order is placed;
otherwise the requested buy quantity is the notional divided by the
leader fill price. -/
theorem C5_buy_sizing (st : CopyState) (follower : UserRow)
    (lt : LeaderTradeRow) (fillPrice balance : ℚ)
    (attempts : ℕ → Except String OrderResult) (ratioPct notional : ℚ)
    (hr : ratioPct = jsOrDefault follower.copyRatioPercent 10)
    (hn : notional = (match follower.maxTradeUsd with
      | none => balance * (ratioPct / 100)
      | some cap => min (balance * (ratioPct / 100)) cap)) :
    (follower.copyRatioPercent = none → ratioPct = 10) ∧
    (notional < 1 →
      executeBuyForFollower st follower lt fillPrice
          (Except.ok balance) attempts =
        insertFollowerTrade st lt.bybitOrderId follower.id
          lt.symbol "buy" "skipped" ratioPct none none
          (some "Insufficient balance") ∧
      (executeBuyForFollower st follower lt fillPrice
          (Except.ok balance) attempts).ordersRequested =
        st.ordersRequested ∧
      (executeBuyForFollower st follower lt fillPrice
          (Except.ok balance) attempts).posdb = st.posdb) ∧
    (¬ notional < 1 →
      (executeBuyForFollower st follower lt fillPrice
          (Except.ok balance) attempts).ordersRequested =
        st.ordersRequested ++
          [(lt.symbol, "buy", notional / fillPrice)]) := by
  subst hr
  subst hn
  obtain ⟨fid, frole, fcr, fmax, fce⟩ := follower
  refine ⟨fun h => by simp at h; simp [h, jsOrDefault], ?_, ?_⟩
  · intro hlt
    have hres : executeBuyForFollower st ⟨fid, frole, fcr, fmax, fce⟩ lt
        fillPrice (Except.ok balance) attempts =
        insertFollowerTrade st lt.bybitOrderId fid lt.symbol "buy"
          "skipped" (jsOrDefault fcr 10) none none
          (some "Insufficient balance") := by
      cases fmax with
      | none =>
        unfold executeBuyForFollower
        dsimp only at hlt ⊢
        rw [if_pos hlt]
      | some cap =>
        unfold executeBuyForFollower
        dsimp only at hlt ⊢
        rw [if_pos hlt]
    exact ⟨hres, by rw [hres]; rfl, by rw [hres]; rfl⟩
  · intro hge
    cases fmax with
    | none =>
      unfold executeBuyForFollower
      dsimp only at hge ⊢
      rw [if_neg hge]
      cases (retryOrder attempts).1 with
      | ok r => rfl
      | error e =>
        simp only [buyCatchBranch, insertFollowerTrade]
        split <;> rfl
    | some cap =>
      unfold executeBuyForFollower
      dsimp only at hge ⊢
      rw [if_neg hge]
      cases (retryOrder attempts).1 with
      | ok r => rfl
      | error e =>
        simp only [buyCatchBranch, insertFollowerTrade]
        split <;> rfl

/-- Witness for C5: balance 1000, unset ratio (default 10 percent), no
cap and fill price 50000 request a buy of exactly 0.002 of the base
asset; a 50-dollar balance at the default ratio is below the floor and
is recorded as skipped with nothing requested. -/
theorem C5_buy_sizing_witness :
    (executeBuyForFollower
        ⟨[], [], PosDB.empty, [], []⟩
        ⟨"f1", "follower", none, none, true⟩
        ⟨"ord1", "BTC/USDT", "buy", "market", 1, none, none, 0, "closed",
          none⟩
        50000 (Except.ok 1000)
        (fun _ => Except.ok ⟨"fo1", none, none⟩)).ordersRequested =
      [("BTC/USDT", "buy", (0.002 : ℚ))] ∧
    (executeBuyForFollower
        ⟨[], [], PosDB.empty, [], []⟩
        ⟨"f1", "follower", none, none, true⟩
        ⟨"ord1", "BTC/USDT", "buy", "market", 1, none, none, 0, "closed",
          none⟩
        50000 (Except.ok 5)
        (fun _ => Except.ok ⟨"fo1", none, none⟩)).followerTrades =
      [⟨"ord1", "f1", "BTC/USDT", "buy", "skipped", 10, none, none,
        some "Insufficient balance"⟩] := by
  constructor
  · have h := (C5_buy_sizing ⟨[], [], PosDB.empty, [], []⟩
      ⟨"f1", "follower", none, none, true⟩
      ⟨"ord1", "BTC/USDT", "buy", "market", 1, none, none, 0, "closed",
        none⟩
      50000 1000 (fun _ => Except.ok ⟨"fo1", none, none⟩)
      10 100 (by simp [jsOrDefault]) (by norm_num)).2.2
      (by norm_num)
    rw [h]
    norm_num
  · have h := ((C5_buy_sizing ⟨[], [], PosDB.empty, [], []⟩
      ⟨"f1", "follower", none, none, true⟩
      ⟨"ord1", "BTC/USDT", "buy", "market", 1, none, none, 0, "closed",
        none⟩
      50000 5 (fun _ => Except.ok ⟨"fo1", none, none⟩)
      10 (1 / 2) (by simp [jsOrDefault]) (by norm_num)).2.1
      (by norm_num)).1
    rw [h]
    rfl

/-- C9: a buy propagation that fails with an unrecoverable error
records a failed FollowerTrade carrying the error text, and the
follower copying flag is set to false exactly when the error text
indicates an authentication or permission failure, excluding that
follower from the active-follower query; both the balance-fetch
failure route and the order-placement failure route reduce to this
catch branch. -/
theorem C9_auth_failure_disables_copying :
    (∀ (st : CopyState) (ltid fid sym : String) (ratioUsed : ℚ)
      (e : String),
      (buyCatchBranch st ltid fid sym ratioUsed e).followerTrades =
        st.followerTrades ++
          [⟨ltid, fid, sym, "buy", "failed", ratioUsed, none, none,
            some e⟩] ∧
      (isAuthError e = true →
        (buyCatchBranch st ltid fid sym ratioUsed e).users =
          st.users.map (fun u =>
            if u.id = fid then { u with copyingEnabled := false } else u) ∧
        ∀ u ∈ getActiveFollowers
          (buyCatchBranch st ltid fid sym ratioUsed e).users,
          u.id ≠ fid) ∧
      (isAuthError e = false →
        (buyCatchBranch st ltid fid sym ratioUsed e).users = st.users)) ∧
    (∀ (st : CopyState) (follower : UserRow) (lt : LeaderTradeRow)
      (fillPrice : ℚ) (e : String)
      (attempts : ℕ → Except String OrderResult),
      executeBuyForFollower st follower lt fillPrice (Except.error e)
        attempts =
      buyCatchBranch st lt.bybitOrderId follower.id lt.symbol
        (jsOrDefault follower.copyRatioPercent 10) e) ∧
    (∀ (st : CopyState) (follower : UserRow) (lt : LeaderTradeRow)
      (fillPrice balance : ℚ) (e : String)
      (attempts : ℕ → Except String OrderResult),
      ¬ (match follower.maxTradeUsd with
        | none => balance * (jsOrDefault follower.copyRatioPercent 10 / 100)
        | some cap =>
          min (balance * (jsOrDefault follower.copyRatioPercent 10 / 100))
            cap) < 1 →
      (retryOrder attempts).1 = Except.error e →
      executeBuyForFollower st follower lt fillPrice (Except.ok balance)
        attempts =
      buyCatchBranch
        { st with
          ordersRequested := st.ordersRequested ++
            [(lt.symbol, "buy",
              (match follower.maxTradeUsd with
                | none =>
                  balance * (jsOrDefault follower.copyRatioPercent 10 / 100)
                | some cap =>
                  min (balance *
                    (jsOrDefault follower.copyRatioPercent 10 / 100))
                    cap) / fillPrice)] }
        lt.bybitOrderId follower.id lt.symbol
        (jsOrDefault follower.copyRatioPercent 10) e) := by
  refine ⟨?_, ?_, ?_⟩
  · intro st ltid fid sym ratioUsed e
    refine ⟨?_, ?_, ?_⟩
    · unfold buyCatchBranch
      split <;> rfl
    · intro hauth
      have husers : (buyCatchBranch st ltid fid sym ratioUsed e).users =
          st.users.map (fun u =>
            if u.id = fid then { u with copyingEnabled := false } else u) := by
        unfold buyCatchBranch
        rw [if_pos hauth]
        rfl
      refine ⟨husers, ?_⟩
      intro u hu hid
      unfold getActiveFollowers at hu
      have h1 := List.of_mem_filter hu
      have h2 := List.mem_of_mem_filter hu
      rw [husers] at h2
      obtain ⟨v, hv, hveq⟩ := List.mem_map.mp h2
      by_cases hvid : v.id = fid
      · rw [if_pos hvid] at hveq
        rw [← hveq] at h1
        simp at h1
      · rw [if_neg hvid] at hveq
        rw [← hveq] at hid
        exact hvid hid
    · intro hnon
      unfold buyCatchBranch
      rw [if_neg (by simp [hnon])]
      rfl
  · intro st follower lt fillPrice e attempts
    rfl
  · intro st follower lt fillPrice balance e attempts hge hfail
    obtain ⟨fid, frole, fcr, fmax, fce⟩ := follower
    cases fmax with
    | none =>
      unfold executeBuyForFollower
      dsimp only at hge ⊢
      rw [if_neg hge, hfail]
    | some cap =>
      unfold executeBuyForFollower
      dsimp only at hge ⊢
      rw [if_neg hge, hfail]

/-- Witness for C9: an invalid-key error disables the follower; a
plain business error records the failure but leaves the user row
untouched. -/
theorem C9_auth_failure_disables_copying_witness :
    (buyCatchBranch
        ⟨[⟨"f1", "follower", none, none, true⟩], [], PosDB.empty, [], []⟩
        "ord1" "f1" "BTC/USDT" 10 "Invalid API key").users =
      [⟨"f1", "follower", none, none, false⟩] ∧
    (buyCatchBranch
        ⟨[⟨"f1", "follower", none, none, true⟩], [], PosDB.empty, [], []⟩
        "ord1" "f1" "BTC/USDT" 10 "insufficient funds").users =
      [⟨"f1", "follower", none, none, true⟩] ∧
    (buyCatchBranch
        ⟨[⟨"f1", "follower", none, none, true⟩], [], PosDB.empty, [], []⟩
        "ord1" "f1" "BTC/USDT" 10 "insufficient funds").followerTrades =
      [⟨"ord1", "f1", "BTC/USDT", "buy", "failed", 10, none, none,
        some "insufficient funds"⟩] := by
  refine ⟨?_, ?_, ?_⟩
  · have h := ((C9_auth_failure_disables_copying.1
      ⟨[⟨"f1", "follower", none, none, true⟩], [], PosDB.empty, [], []⟩
      "ord1" "f1" "BTC/USDT" 10 "Invalid API key").2.1 (by decide)).1
    rw [h]
    rfl
  · have h := (C9_auth_failure_disables_copying.1
      ⟨[⟨"f1", "follower", none, none, true⟩], [], PosDB.empty, [], []⟩
      "ord1" "f1" "BTC/USDT" 10 "insufficient funds").2.2 (by decide)
    rw [h]
  · have h := (C9_auth_failure_disables_copying.1
      ⟨[⟨"f1", "follower", none, none, true⟩], [], PosDB.empty, [], []⟩
      "ord1" "f1" "BTC/USDT" 10 "insufficient funds").1
    rw [h]
    rfl

/-- The running minimum of olderOf stays in the candidate list. -/
lemma foldl_olderOf_mem (rs : List PositionRow) :
    ∀ r : PositionRow, rs.foldl olderOf r ∈ r :: rs := by
  induction rs with
  | nil => intro r; simp [List.foldl]
  | cons a t ih =>
    intro r
    have h := ih (olderOf r a)
    have hsplit : olderOf r a = a ∨ olderOf r a = r := by
      unfold olderOf
      by_cases hc : a.createdAt < r.createdAt
      · rw [if_pos hc]; exact Or.inl rfl
      · rw [if_neg hc]; exact Or.inr rfl
    have hfold : (a :: t).foldl olderOf r = t.foldl olderOf (olderOf r a) :=
      rfl
    rw [hfold]
    rcases List.mem_cons.mp h with h1 | h1
    · rw [h1]
      rcases hsplit with h2 | h2 <;> rw [h2] <;> simp
    · exact List.mem_cons_of_mem _ (List.mem_cons_of_mem _ h1)

/-- The running minimum of olderOf is no younger than the seed or any
candidate. -/
lemma foldl_olderOf_le (rs : List PositionRow) :
    ∀ r : PositionRow,
      (rs.foldl olderOf r).createdAt ≤ r.createdAt ∧
      ∀ x ∈ rs, (rs.foldl olderOf r).createdAt ≤ x.createdAt := by
  induction rs with
  | nil => intro r; simp [List.foldl]
  | cons a t ih =>
    intro r
    have h := ih (olderOf r a)
    have hseed : (olderOf r a).createdAt ≤ r.createdAt ∧
        (olderOf r a).createdAt ≤ a.createdAt := by
      unfold olderOf
      by_cases hc : a.createdAt < r.createdAt
      · rw [if_pos hc]; omega
      · rw [if_neg hc]; omega
    refine ⟨?_, ?_⟩
    · show (t.foldl olderOf (olderOf r a)).createdAt ≤ r.createdAt
      exact le_trans h.1 hseed.1
    · intro x hx
      rcases List.mem_cons.mp hx with h1 | h1
      · subst h1
        exact le_trans h.1 hseed.2
      · exact h.2 x h1

/-- A found oldest open position is an open row of the store. -/
lemma oldestOpen_mem (rows : List PositionRow) (u s : String)
    (p : PositionRow) (h : oldestOpen rows u s = some p) :
    p ∈ rows ∧ isOpenFor p u s = true := by
  unfold oldestOpen at h
  cases hf : rows.filter (fun r => isOpenFor r u s) with
  | nil => rw [hf] at h; exact absurd h (by simp)
  | cons r0 rs0 =>
    rw [hf] at h
    have hp : p = rs0.foldl olderOf r0 := by
      have := h
      simp at this
      exact this.symm
    have hmem : p ∈ r0 :: rs0 := hp ▸ foldl_olderOf_mem rs0 r0
    have hfil : p ∈ rows.filter (fun r => isOpenFor r u s) := by
      rw [hf]; exact hmem
    exact ⟨(List.mem_filter.mp hfil).1, (List.mem_filter.mp hfil).2⟩

/-- A found oldest open position minimises createdAt among the open
rows of (user, symbol). -/
lemma oldestOpen_min (rows : List PositionRow) (u s : String)
    (p : PositionRow) (h : oldestOpen rows u s = some p) :
    ∀ r ∈ rows, isOpenFor r u s = true → p.createdAt ≤ r.createdAt := by
  intro r hr hopen
  unfold oldestOpen at h
  cases hf : rows.filter (fun r => isOpenFor r u s) with
  | nil => rw [hf] at h; exact absurd h (by simp)
  | cons r0 rs0 =>
    rw [hf] at h
    have hp : p = rs0.foldl olderOf r0 := by
      have := h
      simp at this
      exact this.symm
    have hrfil : r ∈ r0 :: rs0 := by
      rw [← hf]
      exact List.mem_filter.mpr ⟨hr, hopen⟩
    have hle := foldl_olderOf_le rs0 r0
    rcases List.mem_cons.mp hrfil with h1 | h1
    · subst h1
      exact hp ▸ hle.1
    · exact hp ▸ hle.2 r h1

/-- C3: closePosition selects the single oldest open position of the
(user, symbol) pair; with none it returns null and changes no row;
otherwise it closes exactly that row with closeQty equal to
min(exitQty, entryQty) and realized profit (exitPrice − entryPrice) ×
closeQty, leaving every other row unchanged; in the concrete FIFO
scenario, lots at 100 then 110 closed at 120 for quantity 1 close the
100 lot with profit 20 and leave the 110 lot open. -/
theorem C3_close_position_fifo :
    (∀ (sdb : PosDB) (u s : String) (xp xq : ℚ),
      oldestOpen sdb.rows u s = none →
      closePosition sdb u s xp xq = (none, sdb)) ∧
    (∀ (sdb : PosDB) (u s : String) (xp xq : ℚ) (p : PositionRow),
      oldestOpen sdb.rows u s = some p →
      (p ∈ sdb.rows ∧ isOpenFor p u s = true) ∧
      (∀ r ∈ sdb.rows, isOpenFor r u s = true →
        p.createdAt ≤ r.createdAt) ∧
      (closePosition sdb u s xp xq).1 =
        some ((xp - p.entryPrice) * min xq p.entryQuantity) ∧
      (closePosition sdb u s xp xq).2.rows = sdb.rows.map (fun r =>
        if r.id = p.id then
          { r with
            exitPrice := some xp
            exitQuantity := some (min xq p.entryQuantity)
            realizedPnl := some ((xp - p.entryPrice) * min xq p.entryQuantity)
            status := "closed" }
        else r) ∧
      (∀ r ∈ sdb.rows, r.id ≠ p.id →
        r ∈ (closePosition sdb u s xp xq).2.rows)) ∧
    (closePosition
        (openPosition
          (openPosition PosDB.empty "u" "BTC/USDT" 100 1 none).2
          "u" "BTC/USDT" 110 1 none).2
        "u" "BTC/USDT" 120 1).1 = some 20 ∧
    ((closePosition
        (openPosition
          (openPosition PosDB.empty "u" "BTC/USDT" 100 1 none).2
          "u" "BTC/USDT" 110 1 none).2
        "u" "BTC/USDT" 120 1).2.rows.map
          (fun r => (r.entryPrice, r.status))) =
      [(100, "closed"), (110, "open")] := by
  refine ⟨?_, ?_,
    by norm_num [closePosition, oldestOpen, openPosition, PosDB.empty,
      isOpenFor, olderOf, min_def],
    by norm_num [closePosition, oldestOpen, openPosition, PosDB.empty,
      isOpenFor, olderOf, min_def]⟩
  · intro sdb u s xp xq h
    unfold closePosition
    rw [h]
  · intro sdb u s xp xq p h
    refine ⟨oldestOpen_mem sdb.rows u s p h, oldestOpen_min sdb.rows u s p h,
      ?_, ?_, ?_⟩
    · unfold closePosition
      rw [h]
    · unfold closePosition
      rw [h]
    · intro r hr hne
      unfold closePosition
      rw [h]
      dsimp only
      exact List.mem_map.mpr ⟨r, hr, by rw [if_neg hne]⟩

/-- Witness for C3 from a store with one open lot: the lot is the
selected oldest and closing realizes (exit − entry) × qty. -/
theorem C3_close_position_fifo_witness :
    (closePosition
        (openPosition PosDB.empty "u" "ETH/USDT" 10 2 none).2
        "u" "ETH/USDT" 14 5).1 = some 8 := by
  have h := (C3_close_position_fifo.2.1
    (openPosition PosDB.empty "u" "ETH/USDT" 10 2 none).2
    "u" "ETH/USDT" 14 5
    ⟨0, "u", "ETH/USDT", "buy", 10, 2, none, none, none, "open", none, 0⟩
    (by decide)).2.2.1
  rw [h]
  norm_num

/-- C8 divergence demonstration: the sell-path select has no order-by,
so the store may legally present a younger open lot first. With two
open lots for (f1, BTC/USDT) — lot id 0 created first with entry 100
and quantity 3, lot id 1 created second with entry 110 and quantity 5 —
presented younger-first, the unordered select picks lot 1 while the
ordered select of closePosition picks lot 0: the market sell is
requested for 5 (lot 1s full entry quantity), the row actually closed
is lot 0 with closeQty min(5, 3) = 3 and realized profit 60, and the
fee row references lot 1. -/
theorem C8_sell_unordered_select_bug :
    oldestOpen
        [⟨1, "f1", "BTC/USDT", "buy", 110, 5, none, none, none, "open",
          none, 1⟩,
         ⟨0, "f1", "BTC/USDT", "buy", 100, 3, none, none, none, "open",
          none, 0⟩] "f1" "BTC/USDT" =
      some ⟨0, "f1", "BTC/USDT", "buy", 100, 3, none, none, none, "open",
        none, 0⟩ ∧
    firstOpenFor
        [⟨1, "f1", "BTC/USDT", "buy", 110, 5, none, none, none, "open",
          none, 1⟩,
         ⟨0, "f1", "BTC/USDT", "buy", 100, 3, none, none, none, "open",
          none, 0⟩] "f1" "BTC/USDT" =
      some ⟨1, "f1", "BTC/USDT", "buy", 110, 5, none, none, none, "open",
        none, 1⟩ ∧
    (executeSellForFollower
        ⟨[], [],
          ⟨[⟨1, "f1", "BTC/USDT", "buy", 110, 5, none, none, none,
            "open", none, 1⟩,
           ⟨0, "f1", "BTC/USDT", "buy", 100, 3, none, none, none,
            "open", none, 0⟩], 2⟩, [], []⟩
        ⟨"f1", "follower", none, none, true⟩
        ⟨"ord2", "BTC/USDT", "sell", "market", 5, none, none, 0, "closed",
          none⟩
        120 (fun _ => Except.ok ⟨"so1", none, none⟩)).ordersRequested =
      [("BTC/USDT", "sell", 5)] ∧
    ((executeSellForFollower
        ⟨[], [],
          ⟨[⟨1, "f1", "BTC/USDT", "buy", 110, 5, none, none, none,
            "open", none, 1⟩,
           ⟨0, "f1", "BTC/USDT", "buy", 100, 3, none, none, none,
            "open", none, 0⟩], 2⟩, [], []⟩
        ⟨"f1", "follower", none, none, true⟩
        ⟨"ord2", "BTC/USDT", "sell", "market", 5, none, none, 0, "closed",
          none⟩
        120 (fun _ => Except.ok ⟨"so1", none, none⟩)).posdb.rows.map
      (fun r => (r.id, r.status, r.exitQuantity, r.realizedPnl))) =
      [(1, "open", none, none), (0, "closed", some 3, some 60)] ∧
    ((executeSellForFollower
        ⟨[], [],
          ⟨[⟨1, "f1", "BTC/USDT", "buy", 110, 5, none, none, none,
            "open", none, 1⟩,
           ⟨0, "f1", "BTC/USDT", "buy", 100, 3, none, none, none,
            "open", none, 0⟩], 2⟩, [], []⟩
        ⟨"f1", "follower", none, none, true⟩
        ⟨"ord2", "BTC/USDT", "sell", "market", 5, none, none, 0, "closed",
          none⟩
        120 (fun _ => Except.ok ⟨"so1", none, none⟩)).fees.map
      (fun f => (f.positionId, f.profitAmount))) = [(1, 60)] := by
  refine ⟨by norm_num [oldestOpen, isOpenFor, olderOf, List.filter,
      List.foldl],
    by norm_num [firstOpenFor, isOpenFor, List.filter], ?_, ?_, ?_⟩ <;>
    norm_num [executeSellForFollower, firstOpenFor, oldestOpen,
      closePosition, insertFollowerTrade, calculateFee, retryOrder,
      retryLoop, MAX_RETRIES, FEE_PERCENT, jsOrDefault, isOpenFor,
      olderOf, min_def, List.filter, List.foldl]

/-- The exchange order ids of a leader-trades table. -/
def tableIds (table : List LeaderTradeRow) : List String :=
  table.map (fun r => r.bybitOrderId)

/-- Row lookup by exchange order id, as in the watcher select. -/
def findRow (table : List LeaderTradeRow) (oid : String) :
    Option LeaderTradeRow :=
  table.find? (fun r => r.bybitOrderId = oid)

/-- The update branch of processOrder as a row function. -/
def updateRow (o : Order) (existing r : LeaderTradeRow) : LeaderTradeRow :=
  if r.bybitOrderId = o.id then
    { r with
      avgFillPrice := jsNumOpt o.average
      filledQuantity := jsOrDefault o.filled 0
      status := if o.status = "closed" then "closed" else existing.status }
  else r

lemma processOrder_of_found (table : List LeaderTradeRow) (now : ℕ)
    (o : Order) (existing : LeaderTradeRow)
    (h : findRow table o.id = some existing) :
    processOrder table now o = table.map (updateRow o existing) := by
  unfold processOrder
  rw [show table.find? (fun r => r.bybitOrderId = o.id) = some existing
    from h]
  rfl

lemma updateRow_id (o : Order) (existing r : LeaderTradeRow) :
    (updateRow o existing r).bybitOrderId = r.bybitOrderId := by
  unfold updateRow
  split <;> rfl

lemma tableIds_map_update (table : List LeaderTradeRow) (o : Order)
    (existing : LeaderTradeRow) :
    tableIds (table.map (updateRow o existing)) = tableIds table := by
  induction table with
  | nil => rfl
  | cons a t ih =>
    unfold tableIds at ih ⊢
    simp only [List.map_cons, updateRow_id]
    rw [ih]

/-- Effect of one processOrder call on the id column: unchanged when
the id is already present, one appended row otherwise. -/
lemma processOrder_ids (table : List LeaderTradeRow) (now : ℕ)
    (o : Order) :
    (findRow table o.id = none ∧
      tableIds (processOrder table now o) = tableIds table ++ [o.id]) ∨
    (∃ existing, findRow table o.id = some existing ∧
      tableIds (processOrder table now o) = tableIds table) := by
  cases h : findRow table o.id with
  | none =>
    left
    refine ⟨rfl, ?_⟩
    unfold processOrder
    rw [show table.find? (fun r => r.bybitOrderId = o.id) = none from h]
    unfold tableIds
    simp
  | some existing =>
    right
    refine ⟨existing, rfl, ?_⟩
    rw [processOrder_of_found table now o existing h]
    exact tableIds_map_update table o existing

/-- find? by id commutes with the update map. -/
lemma findRow_map_update (table : List LeaderTradeRow) (o : Order)
    (existing : LeaderTradeRow) (oid : String) :
    findRow (table.map (updateRow o existing)) oid =
      (findRow table oid).map (updateRow o existing) := by
  unfold findRow
  have hp : ((fun r => decide (r.bybitOrderId = oid)) ∘ updateRow o existing) =
      (fun r : LeaderTradeRow => decide (r.bybitOrderId = oid)) := by
    funext r
    simp [Function.comp, updateRow_id]
  rw [List.find?_map, hp]

lemma statusRank_le_two (s : String) : statusRank s ≤ 2 := by
  unfold statusRank
  split
  · omega
  · split <;> omega

lemma statusRank_two_closed (s : String) (h : 2 ≤ statusRank s) :
    s = "closed" := by
  unfold statusRank at h
  by_cases hc : s = "closed"
  · exact hc
  · rw [if_neg hc] at h
    split at h <;> omega

/-- One processOrder step only raises the status rank of any tracked
row, and never drops a row. -/
lemma processOrder_mono_step (table : List LeaderTradeRow) (now : ℕ)
    (o : Order) (oid : String) (r : LeaderTradeRow)
    (h : findRow table oid = some r) :
    ∃ r2, findRow (processOrder table now o) oid = some r2 ∧
      statusRank r.status ≤ statusRank r2.status := by
  cases hfind : findRow table o.id with
  | none =>
    refine ⟨r, ?_, le_refl _⟩
    unfold processOrder
    rw [show table.find? (fun r => r.bybitOrderId = o.id) = none
      from hfind]
    unfold findRow at h ⊢
    rw [List.find?_append, h]
    rfl
  | some existing =>
    rw [processOrder_of_found table now o existing hfind]
    rw [findRow_map_update table o existing oid, h]
    refine ⟨updateRow o existing r, rfl, ?_⟩
    unfold updateRow
    by_cases hid : r.bybitOrderId = o.id
    · rw [if_pos hid]
      dsimp only
      by_cases hc : o.status = "closed"
      · rw [if_pos hc]
        have h2 : statusRank "closed" = 2 := by unfold statusRank; simp
        show statusRank r.status ≤ statusRank "closed"
        rw [h2]
        exact statusRank_le_two r.status
      · rw [if_neg hc]
        have hre : r = existing := by
          unfold findRow at h hfind
          have h1 : table.find? (fun x => x.bybitOrderId = oid) = some r :=
            h
          have h2 := List.find?_some h1
          simp at h2
          rw [← h2, hid] at h1
          rw [h1] at hfind
          exact Option.some_inj.mp hfind
        rw [← hre]
    · rw [if_neg hid]

/-- Monotonicity over a whole replay. -/
lemma runWatcher_mono (evs : List (ℕ × Order)) :
    ∀ (table : List LeaderTradeRow) (oid : String) (r : LeaderTradeRow),
      findRow table oid = some r →
      ∃ r2, findRow (runWatcher table evs) oid = some r2 ∧
        statusRank r.status ≤ statusRank r2.status := by
  induction evs with
  | nil => intro table oid r h; exact ⟨r, h, le_refl _⟩
  | cons e t ih =>
    intro table oid r h
    obtain ⟨r1, h1, hle1⟩ := processOrder_mono_step table e.1 e.2 oid r h
    obtain ⟨r2, h2, hle2⟩ := ih (processOrder table e.1 e.2) oid r1 h1
    exact ⟨r2, h2, le_trans hle1 hle2⟩

/-- Id-column facts over a whole replay. -/
lemma runWatcher_ids (evs : List (ℕ × Order)) :
    ∀ table : List LeaderTradeRow,
      ((tableIds table).Nodup → (tableIds (runWatcher table evs)).Nodup) ∧
      (∀ oid, oid ∈ tableIds (runWatcher table evs) ↔
        oid ∈ tableIds table ∨ oid ∈ evs.map (fun e => e.2.id)) := by
  induction evs with
  | nil => intro table; simp [runWatcher]
  | cons e t ih =>
    intro table
    have hstep := processOrder_ids table e.1 e.2
    have hrun : runWatcher table (e :: t) =
        runWatcher (processOrder table e.1 e.2) t := rfl
    constructor
    · intro hnd
      rw [hrun]
      apply (ih (processOrder table e.1 e.2)).1
      rcases hstep with ⟨hnone, hids⟩ | ⟨existing, hsome, hids⟩
      · rw [hids]
        have hnotin : e.2.id ∉ tableIds table := by
          intro hmem
          unfold tableIds at hmem
          obtain ⟨r, hr, hrid⟩ := List.mem_map.mp hmem
          unfold findRow at hnone
          have := List.find?_eq_none.mp hnone r hr
          simp [hrid] at this
        exact List.Nodup.append hnd (List.nodup_singleton _)
          (by simpa [List.disjoint_singleton] using hnotin)
      · rw [hids]
        exact hnd
    · intro oid
      rw [hrun]
      rw [(ih (processOrder table e.1 e.2)).2 oid]
      have hmemstep : oid ∈ tableIds (processOrder table e.1 e.2) ↔
          oid ∈ tableIds table ∨ oid = e.2.id := by
        rcases hstep with ⟨hnone, hids⟩ | ⟨existing, hsome, hids⟩
        · rw [hids]
          simp
        · rw [hids]
          constructor
          · exact fun h => Or.inl h
          · rintro (h | h)
            · exact h
            · subst h
              unfold findRow at hsome
              have hmem := List.mem_of_find?_eq_some hsome
              have hpred := List.find?_some hsome
              simp at hpred
              unfold tableIds
              exact List.mem_map.mpr ⟨existing, hmem, hpred⟩
      rw [hmemstep]
      simp only [List.map_cons, List.mem_cons]
      tauto

/-- C1: over any replay of order-update batches, the leader-trades
table keeps at most one row per exchange order id (starting from the
empty table, exactly the processed ids, each once), and the status of
any tracked row only moves forward in the order detected, open,
closed; once closed it never becomes anything else. -/
theorem C1_leader_trade_dedup_monotone :
    (∀ (table : List LeaderTradeRow) (evs : List (ℕ × Order)),
      (tableIds table).Nodup → (tableIds (runWatcher table evs)).Nodup) ∧
    (∀ (evs : List (ℕ × Order)) (oid : String),
      oid ∈ tableIds (runWatcher [] evs) ↔
        oid ∈ evs.map (fun e => e.2.id)) ∧
    (∀ (table : List LeaderTradeRow) (evs : List (ℕ × Order))
      (oid : String) (r r2 : LeaderTradeRow),
      findRow table oid = some r →
      findRow (runWatcher table evs) oid = some r2 →
      statusRank r.status ≤ statusRank r2.status) ∧
    (∀ (table : List LeaderTradeRow) (evs : List (ℕ × Order))
      (oid : String) (r r2 : LeaderTradeRow),
      findRow table oid = some r → r.status = "closed" →
      findRow (runWatcher table evs) oid = some r2 →
      r2.status = "closed") := by
  have hmono : ∀ (table : List LeaderTradeRow) (evs : List (ℕ × Order))
      (oid : String) (r r2 : LeaderTradeRow),
      findRow table oid = some r →
      findRow (runWatcher table evs) oid = some r2 →
      statusRank r.status ≤ statusRank r2.status := by
    intro table evs oid r r2 h h2
    obtain ⟨r3, h3, hle⟩ := runWatcher_mono evs table oid r h
    rw [h3] at h2
    rw [← Option.some_inj.mp h2]
    exact hle
  refine ⟨fun table evs => (runWatcher_ids evs table).1, ?_, hmono, ?_⟩
  · intro evs oid
    have := (runWatcher_ids evs []).2 oid
    simpa [tableIds] using this
  · intro table evs oid r r2 h hc h2
    have hle := hmono table evs oid r r2 h h2
    rw [hc] at hle
    apply statusRank_two_closed
    calc (2 : ℕ) = statusRank "closed" := by unfold statusRank; simp
      _ ≤ statusRank r2.status := hle

/-- Witness for C1: replaying the same closed-order update twice from
the empty table yields a single closed row. -/
theorem C1_leader_trade_dedup_monotone_witness :
    (tableIds (runWatcher []
      [(5, ⟨"o1", "BTC/USDT", "buy", some "market", 1, none, some 100,
        some 1, "closed", none⟩),
       (6, ⟨"o1", "BTC/USDT", "buy", some "market", 1, none, some 100,
        some 1, "closed", none⟩)])).Nodup ∧
    (∀ oid, oid ∈ tableIds (runWatcher []
      [(5, ⟨"o1", "BTC/USDT", "buy", some "market", 1, none, some 100,
        some 1, "closed", none⟩),
       (6, ⟨"o1", "BTC/USDT", "buy", some "market", 1, none, some 100,
        some 1, "closed", none⟩)]) ↔ oid ∈ ["o1", "o1"]) := by
  constructor
  · exact C1_leader_trade_dedup_monotone.1 []
      [(5, ⟨"o1", "BTC/USDT", "buy", some "market", 1, none, some 100,
        some 1, "closed", none⟩),
       (6, ⟨"o1", "BTC/USDT", "buy", some "market", 1, none, some 100,
        some 1, "closed", none⟩)] (by decide)
  · intro oid
    exact (C1_leader_trade_dedup_monotone.2.1
      [(5, ⟨"o1", "BTC/USDT", "buy", some "market", 1, none, some 100,
        some 1, "closed", none⟩),
       (6, ⟨"o1", "BTC/USDT", "buy", some "market", 1, none, some 100,
        some 1, "closed", none⟩)] oid)

/-- The row inserted by the reconciler for an unseen order. -/
def recRow (now : ℕ) (o : Order) : LeaderTradeRow :=
  { bybitOrderId := o.id
    symbol := o.symbol
    side := o.side
    orderType := o.otype.getD "market"
    quantity := o.amount
    price := jsNumOpt o.price
    avgFillPrice := jsNumOpt o.average
    filledQuantity := jsOrDefault o.filled 0
    status :=
      if o.status = "closed" then "closed"
      else if o.status = "open" then "open"
      else "detected"
    positionGroupId := some (o.symbol ++ "_" ++ toString (o.timestamp.getD now)) }

lemma reconcileOrder_followerTrades (leaderId : String) (now : ℕ)
    (st : RecState) (o : Order) :
    (reconcileOrder leaderId now st o).followerTrades =
      st.followerTrades := by
  unfold reconcileOrder
  cases h : st.leaderTrades.find? (fun r => r.bybitOrderId = o.id) with
  | some r => rfl
  | none =>
    dsimp only
    by_cases hf : isFill o = true
    · rw [if_pos hf]
      by_cases hs : o.side = "buy"
      · rw [if_pos hs]
      · rw [if_neg hs]
    · rw [if_neg hf]

/-- C7: an order first seen by the startup reconciliation pass is
inserted into the leader-trades table; when it is a closed fill the
position ledger of the leader is updated, open on buy and close on
sell, and otherwise the ledger is untouched; and the whole pass never
writes a FollowerTrade row. -/
theorem C7_reconciler_no_copy :
    (∀ (leaderId : String) (now : ℕ) (st : RecState)
      (allOrders : List Order),
      (reconcile leaderId now st allOrders).followerTrades =
        st.followerTrades) ∧
    (∀ (leaderId : String) (now : ℕ) (st : RecState) (o : Order),
      st.leaderTrades.find? (fun r => r.bybitOrderId = o.id) = none →
      (reconcileOrder leaderId now st o).leaderTrades =
        st.leaderTrades ++ [recRow now o] ∧
      (isFill o = true → o.side = "buy" →
        (reconcileOrder leaderId now st o).posdb =
          (openPosition st.posdb leaderId o.symbol (o.average.getD 0)
            (o.filled.getD 0)
            (some (o.symbol ++ "_" ++ toString (o.timestamp.getD now)))).2) ∧
      (isFill o = true → ¬ o.side = "buy" →
        (reconcileOrder leaderId now st o).posdb =
          (closePosition st.posdb leaderId o.symbol (o.average.getD 0)
            (o.filled.getD 0)).2) ∧
      (isFill o = false →
        (reconcileOrder leaderId now st o).posdb = st.posdb)) := by
  constructor
  · intro leaderId now st allOrders
    induction allOrders generalizing st with
    | nil => rfl
    | cons o t ih =>
      have hstep := reconcileOrder_followerTrades leaderId now st o
      calc (reconcile leaderId now st (o :: t)).followerTrades
          = (reconcile leaderId now (reconcileOrder leaderId now st o)
              t).followerTrades := rfl
        _ = (reconcileOrder leaderId now st o).followerTrades :=
          ih (reconcileOrder leaderId now st o)
        _ = st.followerTrades := hstep
  · intro leaderId now st o h
    refine ⟨?_, ?_, ?_, ?_⟩
    · unfold reconcileOrder
      rw [h]
      dsimp only
      by_cases hf : isFill o = true
      · rw [if_pos hf]
        by_cases hs : o.side = "buy"
        · rw [if_pos hs]
          rfl
        · rw [if_neg hs]
          rfl
      · rw [if_neg hf]
        rfl
    · intro hf hs
      unfold reconcileOrder
      rw [h]
      dsimp only
      rw [if_pos hf, if_pos hs]
    · intro hf hs
      unfold reconcileOrder
      rw [h]
      dsimp only
      rw [if_pos hf, if_neg hs]
    · intro hf
      unfold reconcileOrder
      rw [h]
      dsimp only
      rw [if_neg (by simp [hf])]

/-- Witness for C7: a closed buy fill recovered by reconciliation
lands in the leader-trades table, opens a leader position, and the
follower-trades table stays empty. -/
theorem C7_reconciler_no_copy_witness :
    (reconcile "leader" 7 ⟨[], PosDB.empty, []⟩
      [⟨"o9", "BTC/USDT", "buy", some "market", 2, none, some 100,
        some 2, "closed", some 77⟩]).followerTrades = [] ∧
    (reconcileOrder "leader" 7 ⟨[], PosDB.empty, []⟩
      ⟨"o9", "BTC/USDT", "buy", some "market", 2, none, some 100,
        some 2, "closed", some 77⟩).posdb =
      (openPosition PosDB.empty "leader" "BTC/USDT" 100 2
        (some "BTC/USDT_77")).2 := by
  constructor
  · exact C7_reconciler_no_copy.1 "leader" 7 ⟨[], PosDB.empty, []⟩
      [⟨"o9", "BTC/USDT", "buy", some "market", 2, none, some 100,
        some 2, "closed", some 77⟩]
  · exact (C7_reconciler_no_copy.2 "leader" 7 ⟨[], PosDB.empty, []⟩
      ⟨"o9", "BTC/USDT", "buy", some "market", 2, none, some 100,
        some 2, "closed", some 77⟩ (by decide)).2.1 (by decide) (by decide)

lemma configLookup_upsert (cfg : List (String × String)) (k v : String) :
    configLookup (configUpsert cfg k v) k = some v := by
  unfold configUpsert
  by_cases h : (cfg.find? (fun kv => kv.1 = k)).isSome
  · rw [if_pos h]
    unfold configLookup
    induction cfg with
    | nil => simp at h
    | cons a t ih =>
      by_cases ha : a.1 = k
      · simp [List.find?_cons, ha]
      · have hfind : (a :: t).find? (fun kv => kv.1 = k) =
            t.find? (fun kv => kv.1 = k) := by
          simp [List.find?_cons, ha]
        rw [hfind] at h
        have hih := ih h
        simp only [List.map_cons, List.find?_cons]
        rw [show (if a.1 = k then (k, v) else a) = a from if_neg ha]
        rw [show decide (a.1 = k) = false from by simp [ha]]
        exact hih
  · rw [if_neg h]
    unfold configLookup
    rw [List.find?_append]
    have hnone : cfg.find? (fun kv => kv.1 = k) = none := by
      cases hf : cfg.find? (fun kv => kv.1 = k) with
      | none => rfl
      | some x => rw [hf] at h; simp at h
    rw [hnone]
    simp [List.find?_cons]

/-- A follower with at least one snapshot always gets an invoice row
carrying its id and the quarter label. -/
lemma generateForFollower_fields (followerId : String) (d : FollowerQData)
    (quarterLabel : String) (h : d.snapshots ≠ []) :
    ∃ inv : InvoiceRow, generateForFollower followerId d quarterLabel =
      some inv ∧ inv.followerId = followerId ∧
      inv.quarterLabel = quarterLabel := by
  have hd : ¬ d.snapshots.length = 0 := by
    simpa [List.length_eq_zero] using h
  unfold generateForFollower
  rw [if_neg hd]
  have hfee : ¬ (calculateTotalFee
      (calculateQuarterProfit (d.startEquitySnap.getD d.snapshots.headI)
        (d.endEquitySnap.getD (d.snapshots.getLastD 0))
        d.netDeposits d.netWithdrawals)).totalFee < 1 / 100 := by
    have h1 : (calculateTotalFee
        (calculateQuarterProfit (d.startEquitySnap.getD d.snapshots.headI)
          (d.endEquitySnap.getD (d.snapshots.getLastD 0))
          d.netDeposits d.netWithdrawals)).totalFee =
        BASE_FEE + (calculateTotalFee
          (calculateQuarterProfit (d.startEquitySnap.getD d.snapshots.headI)
            (d.endEquitySnap.getD (d.snapshots.getLastD 0))
            d.netDeposits d.netWithdrawals)).bracketFee := rfl
    have h2 := bracketFee_nonneg (calculateQuarterProfit
      (d.startEquitySnap.getD d.snapshots.headI)
      (d.endEquitySnap.getD (d.snapshots.getLastD 0))
      d.netDeposits d.netWithdrawals)
    intro hlt
    rw [h1] at hlt
    unfold BASE_FEE at hlt
    linarith
  rw [if_neg hfee]
  exact ⟨_, rfl, rfl, rfl⟩

/-- C4 counterexample: with one eligible follower holding one balance
snapshot, two direct InvoiceGenerator.run calls for the same quarter
insert two invoice rows for that (follower, quarter) pair — the second
generation run is not a no-op, because no unique (follower, quarter)
constraint exists in the schema and generateForFollower never checks
for an existing invoice. -/
theorem C4_invoice_idempotency_counterexample :
    ((runGenerator
        (runGenerator ⟨[], []⟩ ["f1"]
          (fun _ => ⟨[1000], none, none, 0, 0⟩) "2025-Q3")
        ["f1"] (fun _ => ⟨[1000], none, none, 0, 0⟩)
        "2025-Q3").invoices.filter
      (fun inv => inv.followerId = "f1" && inv.quarterLabel =
        "2025-Q3")).length = 2 := by
  obtain ⟨inv, heq, hfid, hq⟩ := generateForFollower_fields "f1"
    ⟨[1000], none, none, 0, 0⟩ "2025-Q3" (by decide)
  have hrun : ∀ st : InvState,
      runGenerator st ["f1"] (fun _ => ⟨[1000], none, none, 0, 0⟩)
        "2025-Q3" =
      ⟨configUpsert st.systemConfig "last_invoice_generation" "2025-Q3",
        st.invoices ++ [inv]⟩ := by
    intro st
    unfold runGenerator
    simp only [List.foldl, heq]
  rw [hrun, hrun]
  dsimp only
  simp [List.filter_append, List.filter, hfid, hq]

/-- C4 amended: after a run records the quarter in the
last_invoice_generation marker, shouldRun is false for that quarter on
any date, so the scheduler-gated invoice job is idempotent: a second
tick for the same quarter leaves the store unchanged and in
particular inserts no second invoice row; the guard is this stored
marker, not a unique (follower, quarter) constraint. -/
theorem C4_invoice_idempotency_amended :
    (∀ (st : InvState) (followers : List String)
      (data : String → FollowerQData) (quarterLabel : String)
      (day month : ℕ),
      shouldRun (runGenerator st followers data quarterLabel)
        day month quarterLabel = false) ∧
    (∀ (st : InvState) (day month : ℕ) (followers : List String)
      (data : String → FollowerQData) (quarterLabel : String),
      invoiceJobTick
        (invoiceJobTick st day month followers data quarterLabel)
        day month followers data quarterLabel =
      invoiceJobTick st day month followers data quarterLabel) := by
  have hfalse : ∀ (st : InvState) (followers : List String)
      (data : String → FollowerQData) (quarterLabel : String)
      (day month : ℕ),
      shouldRun (runGenerator st followers data quarterLabel)
        day month quarterLabel = false := by
    intro st followers data quarterLabel day month
    unfold shouldRun
    by_cases hd : day ≠ 1 ∨ ¬ ([1, 4, 7, 10].contains month = true)
    · rw [if_pos (by simpa using hd)]
    · rw [if_neg (by simpa using hd)]
      have : configLookup (runGenerator st followers data
          quarterLabel).systemConfig "last_invoice_generation" =
          some quarterLabel := by
        unfold runGenerator
        exact configLookup_upsert _ _ _
      rw [this]
      simp
  refine ⟨hfalse, ?_⟩
  intro st day month followers data quarterLabel
  unfold invoiceJobTick
  by_cases hs : shouldRun st day month quarterLabel = true
  · rw [if_pos hs, if_neg (by rw [hfalse]; simp)]
  · rw [if_neg hs, if_neg hs]

end Pobeer
